import Mathlib

/-!
Verification of the Catan rules engine against its specification.

The development shallowly embeds the repository's JavaScript sources:

* the coordinate-equivalence helper `getEquivalentVerticesLocal` and the
  resource-distribution routine `simulateDistributeResources` (both present
  verbatim in the test sources),
* the board renderer's key parsing and derived collections
  (`parseVertexKey`, `parseEdgeKey`, `roads`, `clickableEdges`,
  `uniqueVertices`),
* and, for the parts of the engine whose module (`gameLogic.js`) is not in
  the source tree, definitions modelled from the specification
  (longest-road engine, action validators, player view projector); those
  carry `Modelled from the spec:` doc comments.

Machine reals in the renderer are avoided by working in exact integer
coordinates: every vertex position produced by the renderer's float
geometry is an exact multiple of `HEX_SIZE·√3/2` horizontally and
`HEX_SIZE/2` vertically, so positions are represented by the integer pair
of those multiples, which determines the float values exactly.
-/

namespace Catan

/-- A coordinate triple `(q, r, dir)` addressing a vertex or an edge of the
hex at axial coordinates `(q, r)`, as used throughout the sources. -/
structure Triple where
  q : Int
  r : Int
  dir : Nat
deriving DecidableEq, Repr

/-- Embedding of `getEquivalentVerticesLocal` from the test source
(`part_000`, "same logic as gameLogic.js"): the ≤3 coordinate triples
denoting the same physical vertex, derived from fixed per-direction
neighbor offsets.  For a direction outside `0–5` the source pushes nothing
and returns only the input triple. -/
def getEquivalentVerticesLocal (q r : Int) (dir : Nat) : List Triple :=
  if dir = 0 then [⟨q, r, 0⟩, ⟨q, r - 1, 2⟩, ⟨q + 1, r - 1, 4⟩]
  else if dir = 1 then [⟨q, r, 1⟩, ⟨q + 1, r - 1, 3⟩, ⟨q + 1, r, 5⟩]
  else if dir = 2 then [⟨q, r, 2⟩, ⟨q + 1, r, 4⟩, ⟨q, r + 1, 0⟩]
  else if dir = 3 then [⟨q, r, 3⟩, ⟨q, r + 1, 5⟩, ⟨q - 1, r + 1, 1⟩]
  else if dir = 4 then [⟨q, r, 4⟩, ⟨q - 1, r + 1, 0⟩, ⟨q - 1, r, 2⟩]
  else if dir = 5 then [⟨q, r, 5⟩, ⟨q - 1, r, 1⟩, ⟨q, r - 1, 3⟩]
  else [⟨q, r, dir⟩]

/-- Horizontal vertex offset: `cos (90° - 60°·d)` of the renderer's
pointy-top geometry, measured in units of `HEX_SIZE·√3/2` (exact). -/
def vcx : Nat → Int
  | 0 => 0
  | 1 => 1
  | 2 => 1
  | 3 => 0
  | 4 => -1
  | 5 => -1
  | _ => 0

/-- Vertical vertex offset: `sin (90° - 60°·d)` of the renderer's
pointy-top geometry, measured in units of `HEX_SIZE/2` (exact). -/
def vsy : Nat → Int
  | 0 => 2
  | 1 => 1
  | 2 => -1
  | 3 => -2
  | 4 => -1
  | 5 => 1
  | _ => 0

/-- Exact integer form of the renderer's `getVertexPosition`: the hex
center `axialToPixel` contributes `(2q + r)` horizontal and `3r` vertical
units, the corner contributes `(vcx d, -vsy d)`.  Two float positions of
the renderer coincide iff these integer pairs coincide. -/
def vertexPos (q r : Int) (dir : Nat) : Int × Int :=
  (2 * q + r + vcx dir, 3 * r - vsy dir)

/-- `vertexPos` on a triple. -/
def vertexPosT (t : Triple) : Int × Int :=
  vertexPos t.q t.r t.dir

/-- Membership test on the equivalence set, as the spec describes
`areVerticesEqual`. -/
def areVerticesEqual (a b : Triple) : Bool :=
  (getEquivalentVerticesLocal a.q a.r a.dir).contains b

/-! ## Resource distribution (embedded from `simulateDistributeResources`) -/

/-- The five resource kinds. -/
inductive Resource
  | lumber
  | brick
  | wool
  | grain
  | ore
deriving DecidableEq, Repr

/-- Building kinds on a vertex. -/
inductive Building
  | settlement
  | city
deriving DecidableEq, Repr

/-- A resource hand: one counter per resource. -/
structure Resources where
  lumber : Nat := 0
  brick : Nat := 0
  wool : Nat := 0
  grain : Nat := 0
  ore : Nat := 0
deriving DecidableEq, Repr

/-- `player.resources[res] += amount`. -/
def addRes (h : Resources) (res : Resource) (amount : Nat) : Resources :=
  match res with
  | .lumber => { h with lumber := h.lumber + amount }
  | .brick => { h with brick := h.brick + amount }
  | .wool => { h with wool := h.wool + amount }
  | .grain => { h with grain := h.grain + amount }
  | .ore => { h with ore := h.ore + amount }

/-- A hex record as used by the distribution test: axial coordinates,
optional resource (none for desert) and optional dice number. -/
structure DHex where
  q : Int
  r : Int
  resource : Option Resource
  number : Option Nat
deriving DecidableEq, Repr

/-- A vertex-map entry: optional building and optional owner index. -/
structure DVertex where
  building : Option Building
  owner : Option Nat
deriving DecidableEq, Repr

/-- The slice of the game state read and written by
`simulateDistributeResources`: the hex map, the vertex map (string-keyed,
insertion order), the robber's hex key, and each player's resource hand.
JavaScript objects iterate in insertion order, modelled by list order;
`game.vertices[vKey]` is an association-list lookup. -/
structure DGame where
  hexes : List (String × DHex)
  vertices : List (String × DVertex)
  robber : String
  players : List Resources
deriving Repr

/-- `result[i] = f result[i]`, identity out of range. -/
def updateAt {α : Type} (l : List α) (i : Nat) (f : α → α) : List α :=
  match l, i with
  | [], _ => []
  | x :: xs, 0 => f x :: xs
  | x :: xs, n + 1 => x :: updateAt xs n f

/-- The string key `v_${q}_${r}_${dir}` of a vertex triple. -/
def vertexKeyStr (t : Triple) : String :=
  "v_" ++ toString t.q ++ "_" ++ toString t.r ++ "_" ++ toString t.dir

/-- The inner loop of `simulateDistributeResources`: scan the equivalence
set of `(q, r, dir)` for the first vertex entry with a building (mimics
`findBuildingAtHexVertex`), returning its owner, type and the key it is
stored under. -/
def findBuildingAtHexVertex (vertices : List (String × DVertex)) :
    List Triple → Option (Option Nat × Building × String)
  | [] => none
  | t :: rest =>
    let vKey := vertexKeyStr t
    match vertices.lookup vKey with
    | some v =>
      match v.building with
      | some b => some (v.owner, b, vKey)
      | none => findBuildingAtHexVertex vertices rest
    | none => findBuildingAtHexVertex vertices rest

/-- One `(hex, dir)` step of the distribution loop: find a building at the
hex's `dir` vertex, and if its owner and the hex's resource are present,
credit the owner 1 (settlement) or 2 (city) of the resource unless the
`(hexKey, vertexKey)` pair was already processed.  The hex is passed as
the three fields the loop body reads (`q`, `r`, `resource`). -/
def distStep (vertices : List (String × DVertex)) (hKey : String)
    (hq hr : Int) (hres : Option Resource)
    (st : List String × List Resources) (dir : Nat) :
    List String × List Resources :=
  match findBuildingAtHexVertex vertices
      (getEquivalentVerticesLocal hq hr dir) with
  | none => st
  | some (ow, btype, vKey) =>
    match ow, hres with
    | some owner, some res =>
      let hexVertexKey := hKey ++ "," ++ vKey
      if hexVertexKey ∈ st.1 then st
      else
        (hexVertexKey :: st.1,
         updateAt st.2 owner
           (fun h => addRes h res (if btype = .city then 2 else 1)))
    | _, _ => st

/-- Embedding of the test source's `simulateDistributeResources` ("mirrors
the actual game logic in distributeResources"): for every hex whose number
equals the roll and which is not the robber's hex, probe its six vertex
directions through the equivalence sets and credit building owners,
deduplicating on `(hexKey, vertexKey)`. -/
def simulateDistributeResources (game : DGame) (roll : Nat) : DGame :=
  let st :=
    game.hexes.foldl
      (fun st (entry : String × DHex) =>
        let hKey := entry.1
        let hex := entry.2
        if hex.number = some roll ∧ hKey ≠ game.robber then
          (List.range 6).foldl
            (distStep game.vertices hKey hex.q hex.r hex.resource) st
        else st)
      ([], game.players)
  { game with players := st.2 }

/-- The two-adjacent-hex family of distribution tests 2.1/2.3: hexes
`(0,0)` and `(1,0)`, same resource (lumber), same number `n`; a building
of kind `b` owned by player 0 sits on their shared physical vertex, stored
under the key of triple `t`; player 0 starts with `c` lumber. -/
def sharedVertexGame (n c : Nat) (b : Building) (t : Triple)
    (robber : String) : DGame :=
  { hexes := [("0,0", ⟨0, 0, some .lumber, some n⟩),
              ("1,0", ⟨1, 0, some .lumber, some n⟩)],
    vertices := [(vertexKeyStr t, ⟨some b, some 0⟩)],
    robber := robber,
    players := [{ lumber := c }] }

/-! ## Board renderer (embedded from the `HexBoard` component) -/

/-- Numeric value of a digit run, as `parseInt` computes it. -/
def digitsToNat (ds : List Char) : Nat :=
  ds.foldl (fun a c => a * 10 + (c.toNat - 48)) 0

/-- Consume a maximal nonempty digit run (the regex atom `\d+`, which is
greedy; since a digit can never also match the following `_`, greedy
matching needs no backtracking here). -/
def parseNatRun (cs : List Char) : Option (Nat × List Char) :=
  let p := cs.span Char.isDigit
  if p.1.isEmpty then none else some (digitsToNat p.1, p.2)

/-- Consume `-?\d+`: an optional minus sign then a digit run.  If `-` is
present but no digit follows, the regex backtracks over the optional sign
and then still fails on `\d+`, so the whole atom fails — matching this
implementation. -/
def parseIntRun (cs : List Char) : Option (Int × List Char) :=
  match cs with
  | '-' :: rest => (parseNatRun rest).map (fun p => (-(p.1 : Int), p.2))
  | _ => (parseNatRun cs).map (fun p => ((p.1 : Int), p.2))

/-- Try to match `c0_(-?\d+)_(-?\d+)_(\d+)` at the head of the character
list, returning the three captured groups through `parseInt`. -/
def matchKeyAt (c0 : Char) (cs : List Char) : Option Triple :=
  match cs with
  | c :: '_' :: rest =>
    if c = c0 then
      match parseIntRun rest with
      | some (q, '_' :: rest2) =>
        match parseIntRun rest2 with
        | some (r, '_' :: rest3) =>
          match parseNatRun rest3 with
          | some (d, _) => some ⟨q, r, d⟩
          | none => none
        | _ => none
      | _ => none
    else none
  | _ => none

/-- Leftmost match of the unanchored pattern, as JavaScript
`key.match(/c0_(-?\d+)_(-?\d+)_(\d+)/)` searches every start position
from the left. -/
def searchKey (c0 : Char) : List Char → Option Triple
  | [] => none
  | c :: rest =>
    match matchKeyAt c0 (c :: rest) with
    | some t => some t
    | none => searchKey c0 rest

/-- Embedding of the renderer's `parseVertexKey`. -/
def parseVertexKey (key : String) : Option Triple :=
  searchKey 'v' key.data

/-- Embedding of the renderer's `parseEdgeKey`. -/
def parseEdgeKey (key : String) : Option Triple :=
  searchKey 'e' key.data

/-- An edge-map entry as the renderer reads it. -/
structure EdgeVal where
  road : Bool
  owner : Nat
deriving DecidableEq, Repr

/-- A vertex-map entry as the renderer reads it. -/
structure VertexVal where
  building : Option Building
  owner : Nat
deriving DecidableEq, Repr

/-- Embedding of `getEdgeEndpoints`: edge direction `dir` connects vertex
`dir` to vertex `(dir+1) % 6`, in the exact integer coordinates of
`vertexPos`.  For a parsed `dir ≥ 6` the JavaScript indexes past the
`angles` array and produces NaN coordinates (without throwing); the
integer stand-in is the `vcx`/`vsy` default, equally without failure. -/
def getEdgeEndpoints (t : Triple) : (Int × Int) × (Int × Int) :=
  (vertexPos t.q t.r t.dir, vertexPos t.q t.r ((t.dir + 1) % 6))

/-- A `roads` list item: key, owner, and the two endpoint positions. -/
structure RoadItem where
  key : String
  owner : Nat
  v1 : Int × Int
  v2 : Int × Int
deriving DecidableEq, Repr

/-- Embedding of the renderer's `roads` computation: every edge entry with
`road: true` whose key parses contributes one drawn road; entries whose
key does not parse are skipped. -/
def roads (edges : List (String × EdgeVal)) : List RoadItem :=
  edges.filterMap (fun p =>
    if p.2.road then
      (parseEdgeKey p.1).map (fun t =>
        let e := getEdgeEndpoints t
        ⟨p.1, p.2.owner, e.1, e.2⟩)
    else none)

/-- The renderer's position-pair identity for an edge:
`[posKey(v1), posKey(v2)].sort().join('|')`.  On exact positions `posKey`
is injective (distinct integer units are ≥ 25 float units apart, far above
the rounding granularity), so the joined string identifies exactly the
unordered pair of endpoint positions, modelled as the sorted pair. -/
def pairKey (a b : Int × Int) : (Int × Int) × (Int × Int) :=
  if a.1 < b.1 ∨ (a.1 = b.1 ∧ a.2 ≤ b.2) then (a, b) else (b, a)

/-- Embedding of the renderer's `clickableEdges` computation: first mark
the position pairs that carry roads, then walk the entries again keeping
the first entry for each yet-unseen road-free position pair; entries whose
key does not parse are skipped in both passes. -/
def clickableEdges (edges : List (String × EdgeVal)) :
    List (String × ((Int × Int) × (Int × Int))) :=
  let roadPositions := edges.filterMap (fun p =>
    if p.2.road then
      (parseEdgeKey p.1).map (fun t =>
        let e := getEdgeEndpoints t
        pairKey e.1 e.2)
    else none)
  (edges.foldl
    (fun (st : List ((Int × Int) × (Int × Int)) ×
               List (String × ((Int × Int) × (Int × Int)))) p =>
      match parseEdgeKey p.1 with
      | none => st
      | some t =>
        let e := getEdgeEndpoints t
        let pk := pairKey e.1 e.2
        if pk ∈ roadPositions then st
        else if pk ∈ st.1 then st
        else (pk :: st.1, st.2 ++ [(p.1, e)]))
    ([], [])).2

/-- A `uniqueVertices` list item: key, entry, parsed triple, position. -/
structure VItem where
  key : String
  building : Option Building
  owner : Nat
  parsed : Triple
  pos : Int × Int
deriving DecidableEq, Repr

/-- Embedding of the renderer's `uniqueVertices` computation: entries
whose key does not parse, or whose hex `q,r` is absent from the hex map,
are skipped; the first entry per physical position wins, except that a
later entry carrying a building replaces a building-less one (both in the
`seen` map, modelled by a shadowing association list, and in the result
list at the original index). -/
def uniqueVertices {α : Type} (hexes : List (String × α))
    (vertices : List (String × VertexVal)) : List VItem :=
  (vertices.foldl
    (fun (st : List ((Int × Int) × VItem) × List VItem) p =>
      match parseVertexKey p.1 with
      | none => st
      | some t =>
        if (hexes.lookup (toString t.q ++ "," ++ toString t.r)).isSome then
          let pos := vertexPosT t
          match st.1.lookup pos with
          | none =>
            let item : VItem := ⟨p.1, p.2.building, p.2.owner, t, pos⟩
            ((pos, item) :: st.1, st.2 ++ [item])
          | some existing =>
            if p.2.building.isSome ∧ existing.building = none then
              match st.2.findIdx? (fun it => it.key == existing.key) with
              | some idx =>
                let item : VItem := ⟨p.1, p.2.building, p.2.owner, t, pos⟩
                ((pos, item) :: st.1, updateAt st.2 idx (fun _ => item))
              | none => st
            else st
        else st)
    ([], [])).2

/-! ## Core rules engine

Modelled from the spec: the module `gameLogic.js` that implements the
state model, the longest-road engine, the action validators and the
player-view projector is not part of the source tree (only its tests and
callers are), so the definitions below transcribe sections 3, 4.2 and
4.4–4.6 of the specification.  Vertex and edge maps are keyed by
coordinate triples as the spec's data model describes; equivalence is
resolved at read time by comparing canonical positions. -/

/-- Game phases (spec section 3). -/
inductive GamePhase
  | setup
  | playing
  | finished
deriving DecidableEq, Repr

/-- Turn sub-phases (spec section 3). -/
inductive TurnPhase
  | roll
  | robber
  | discard
  | main
  | specialBuild
deriving DecidableEq, Repr

/-- Development card kinds; `victoryPoint` is the trivial point-card,
exempt from the one-per-turn rule. -/
inductive DevCard
  | knight
  | roadBuilding
  | yearOfPlenty
  | monopoly
  | victoryPoint
deriving DecidableEq, Repr

/-- Modelled from the spec: the Player record of the data model. -/
structure GPlayer where
  id : String
  resources : Resources := {}
  settlements : Nat := 5
  cities : Nat := 4
  roads : Nat := 15
  victoryPoints : Nat := 0
  hiddenVictoryPoints : Nat := 0
  hasLongestRoad : Bool := false
  roadLength : Nat := 0
  developmentCards : List DevCard := []
  newDevCards : List DevCard := []
deriving DecidableEq, Repr

/-- A vertex-map entry of the core state. -/
structure BuildingInfo where
  building : Option Building
  owner : Option Nat
deriving DecidableEq, Repr

/-- An edge-map entry of the core state. -/
structure RoadInfo where
  road : Bool
  owner : Nat
deriving DecidableEq, Repr

/-- Modelled from the spec: the Game aggregate of the data model. -/
structure Game where
  hexes : List (String × DHex) := []
  vertices : List (Triple × BuildingInfo) := []
  edges : List (Triple × RoadInfo) := []
  players : List GPlayer := []
  currentPlayerIndex : Nat := 0
  phase : GamePhase := .setup
  turnPhase : TurnPhase := .roll
  robber : String := ""
  longestRoadPlayer : Option Nat := none
  longestRoadLength : Nat := 0
  hasRolledThisTurn : Bool := false
  devCardPlayedThisTurn : Bool := false
  discardingPlayers : List Nat := []
deriving Repr

/-- Modelled from the spec: the canonical physical edge of an edge triple —
the unordered pair of its endpoint positions (vertex `dir` and vertex
`(dir+1) % 6`), sorted so that the two equivalent keys of one physical
edge canonicalize identically. -/
def canonEdge (t : Triple) : (Int × Int) × (Int × Int) :=
  pairKey (vertexPos t.q t.r t.dir) (vertexPos t.q t.r ((t.dir + 1) % 6))

/-- Modelled from the spec (longest-road engine, step 1): the player's
owned physical roads, deduplicated via edge equivalence. -/
def playerRoadEdges (edges : List (Triple × RoadInfo)) (i : Nat) :
    List ((Int × Int) × (Int × Int)) :=
  (edges.filterMap (fun p =>
    if p.2.road && p.2.owner == i then some (canonEdge p.1) else none)).dedup

/-- Modelled from the spec (opponent-settlement cut rule): a physical
vertex is blocked for player `i` when some vertex entry carrying a
building owned by a different player resolves to it; the player's own
buildings never block. -/
def blockedFor (vertices : List (Triple × BuildingInfo)) (i : Nat)
    (v : Int × Int) : Bool :=
  vertices.any (fun p =>
    p.2.building.isSome && p.2.owner != some i && (vertexPosT p.1 == v))

/-- Modelled from the spec (longest-road engine, step 2): depth-first
search extending along unused edges, counting edges traversed; arrival at
a blocked vertex ends the extension (the blocked vertex may still be a
path endpoint, including the start).  The fuel is the number of remaining
edges, consumed in lockstep with the edge list. -/
def dfs : Nat → List ((Int × Int) × (Int × Int)) → (Int × Int) →
    ((Int × Int) → Bool) → Nat
  | 0, _, _, _ => 0
  | fuel + 1, edges, v, blocked =>
    (edges.filter (fun e => e.1 == v || e.2 == v)).foldr
      (fun e acc =>
        let w := if e.1 = v then e.2 else e.1
        max acc
          (1 + (if blocked w then 0 else dfs fuel (edges.erase e) w blocked)))
      0

/-- Modelled from the spec: the longest road over a player's physical
edge list — the maximum over depth-first searches started from every
endpoint vertex.  Total, reporting 0 for an empty edge list. -/
def roadLength (edges : List ((Int × Int) × (Int × Int)))
    (blocked : (Int × Int) → Bool) : Nat :=
  ((edges.map Prod.fst ++ edges.map Prod.snd).dedup).foldr
    (fun v acc => max acc (dfs edges.length edges v blocked)) 0

/-- The recomputed road lengths of all players. -/
def playerLens (g : Game) : List Nat :=
  (List.range g.players.length).map (fun i =>
    roadLength (playerRoadEdges g.edges i) (blockedFor g.vertices i))

/-- Modelled from the spec (award rule): the player whose road is
strictly the longest and of length at least 5, if any — on a tie for the
maximum there is no such player. -/
def findStrictlyLongest (lens : List Nat) : Option Nat :=
  (List.range lens.length).find? (fun i =>
    decide (5 ≤ lens.getD i 0 ∧
      ∀ j ∈ List.range lens.length, j ≠ i → lens.getD j 0 < lens.getD i 0))

/-- Modelled from the spec (award rule and tie-break): a current holder
keeps the bonus while its length is at least 5 and no player exceeds it;
otherwise — including when the holder's length drops below 5 — the bonus
goes to the strictly longest qualifying player, or to no one. -/
def awardLongestRoad (lens : List Nat) (current : Option Nat) : Option Nat :=
  match current with
  | some h =>
    if 5 ≤ lens.getD h 0 ∧ ∀ l ∈ lens, l ≤ lens.getD h 0 then some h
    else findStrictlyLongest lens
  | none => findStrictlyLongest lens

/-- Modelled from the spec: `updateLongestRoad` records every player's
recomputed `roadLength`, applies the award rule to `longestRoadPlayer`,
and refreshes the `hasLongestRoad` flags (the 2-VP bonus is represented
by the flag). -/
def updateLongestRoad (g : Game) : Game :=
  let lens := playerLens g
  let holder := awardLongestRoad lens g.longestRoadPlayer
  { g with
    players := g.players.mapIdx (fun i p =>
      { p with roadLength := lens.getD i 0,
               hasLongestRoad := holder == some i }),
    longestRoadPlayer := holder,
    longestRoadLength := lens.foldr max 0 }

/-! ## Action validators and appliers (modelled from the spec) -/

/-- The result shape of every action:
`{ success, error? }` plus the state after the call (unchanged when the
call fails). -/
structure ActionOut where
  success : Bool
  error : Option String
  game : Game
deriving Repr

/-- Whether `pid` is the player whose turn it is. -/
def isCurrentPlayer (g : Game) (pid : String) : Bool :=
  match g.players.get? g.currentPlayerIndex with
  | some p => p.id == pid
  | none => false

/-- A building stands at this physical vertex (under any equivalent key). -/
def vertexOccupied (vertices : List (Triple × BuildingInfo))
    (pos : Int × Int) : Bool :=
  vertices.any (fun p => p.2.building.isSome && (vertexPosT p.1 == pos))

/-- The up-to-three physical vertices adjacent to a vertex: the two
circularly-adjacent corners on each of its up-to-3 hexes, deduplicated to
physical positions (spec's `vertexEdges` neighborhood). -/
def vertexNeighbors (t : Triple) : List (Int × Int) :=
  ((getEquivalentVerticesLocal t.q t.r t.dir).flatMap (fun e =>
    [vertexPos e.q e.r ((e.dir + 1) % 6),
     vertexPos e.q e.r ((e.dir + 5) % 6)])).dedup

/-- Player `i` owns a road incident to this physical vertex. -/
def roadTouches (edges : List (Triple × RoadInfo)) (i : Nat)
    (pos : Int × Int) : Bool :=
  edges.any (fun p => p.2.road && p.2.owner == i &&
    ((canonEdge p.1).1 == pos || (canonEdge p.1).2 == pos))

/-- A road occupies this physical edge (under any equivalent key). -/
def edgeHasRoad (edges : List (Triple × RoadInfo)) (t : Triple) : Bool :=
  edges.any (fun p => p.2.road && (canonEdge p.1 == canonEdge t))

/-- Player `i` owns a building at this physical vertex. -/
def ownsVertexAt (vertices : List (Triple × BuildingInfo)) (i : Nat)
    (pos : Int × Int) : Bool :=
  vertices.any (fun p =>
    p.2.building.isSome && p.2.owner == some i && (vertexPosT p.1 == pos))

/-- Modelled from the spec: settlement-placement preconditions, first
failure reported — turn, phase, occupancy under any equivalent key, the
distance rule over adjacent physical vertices, connectivity to an owned
road during `playing`, remaining pieces, and resources (waived during
setup). -/
def canPlaceSettlementErr (g : Game) (pid : String) (t : Triple)
    (isSetup : Bool) : Option String :=
  if isCurrentPlayer g pid = false then some "Not your turn"
  else if (if isSetup then g.phase == .setup
           else g.phase == .playing &&
             (g.turnPhase == .main || g.turnPhase == .specialBuild)) = false then
    some "Cannot build now"
  else if vertexOccupied g.vertices (vertexPosT t) then some "Vertex occupied"
  else if (vertexNeighbors t).any (vertexOccupied g.vertices) then
    some "Too close to another settlement"
  else if (!isSetup && !roadTouches g.edges g.currentPlayerIndex (vertexPosT t)) then
    some "Must connect to your road"
  else
    match g.players.get? g.currentPlayerIndex with
    | none => some "No such player"
    | some p =>
      if p.settlements == 0 then some "No settlement pieces left"
      else if (!isSetup &&
          (p.resources.brick == 0 || p.resources.lumber == 0 ||
           p.resources.wool == 0 || p.resources.grain == 0)) then
        some "Insufficient resources"
      else none

/-- The settlement-placement mutation: mark the vertex, decrement the
piece count, grant 1 visible victory point, deduct resources unless
waived during setup. -/
def applySettlement (g : Game) (t : Triple) (isSetup : Bool) : Game :=
  { g with
    vertices := (t, ⟨some .settlement, some g.currentPlayerIndex⟩) :: g.vertices,
    players := updateAt g.players g.currentPlayerIndex (fun p =>
      { p with
        settlements := p.settlements - 1,
        victoryPoints := p.victoryPoints + 1,
        resources :=
          if isSetup then p.resources
          else { p.resources with
                 brick := p.resources.brick - 1,
                 lumber := p.resources.lumber - 1,
                 wool := p.resources.wool - 1,
                 grain := p.resources.grain - 1 } }) }

/-- Modelled from the spec: `placeSettlement` — validate, then mutate and
trigger the Longest Road Engine (settlements can cut an opponent's road). -/
def placeSettlement (g : Game) (pid : String) (t : Triple)
    (isSetup : Bool) : ActionOut :=
  match canPlaceSettlementErr g pid t isSetup with
  | some e => ⟨false, some e, g⟩
  | none => ⟨true, none, updateLongestRoad (applySettlement g t isSetup)⟩

/-- Modelled from the spec: road-placement preconditions — turn, phase
(`free` covers card-granted roads), the edge free of a road under any
equivalent key, an endpoint vertex owned by the player or an adjacent
owned road, remaining pieces, and resources unless free or in setup. -/
def canPlaceRoadErr (g : Game) (pid : String) (t : Triple)
    (free : Bool) : Option String :=
  if isCurrentPlayer g pid = false then some "Not your turn"
  else if (if g.phase == .setup then true
           else g.phase == .playing &&
             (g.turnPhase == .main || g.turnPhase == .specialBuild || free)) = false then
    some "Cannot build now"
  else if edgeHasRoad g.edges t then some "Edge occupied"
  else if (!ownsVertexAt g.vertices g.currentPlayerIndex (vertexPos t.q t.r t.dir) &&
           !ownsVertexAt g.vertices g.currentPlayerIndex
             (vertexPos t.q t.r ((t.dir + 1) % 6)) &&
           !roadTouches g.edges g.currentPlayerIndex (vertexPos t.q t.r t.dir) &&
           !roadTouches g.edges g.currentPlayerIndex
             (vertexPos t.q t.r ((t.dir + 1) % 6))) then
    some "Must connect to your network"
  else
    match g.players.get? g.currentPlayerIndex with
    | none => some "No such player"
    | some p =>
      if p.roads == 0 then some "No road pieces left"
      else if (!(g.phase == .setup) && !free &&
          (p.resources.brick == 0 || p.resources.lumber == 0)) then
        some "Insufficient resources"
      else none

/-- The road-placement mutation. -/
def applyRoad (g : Game) (t : Triple) (free : Bool) : Game :=
  { g with
    edges := (t, ⟨true, g.currentPlayerIndex⟩) :: g.edges,
    players := updateAt g.players g.currentPlayerIndex (fun p =>
      { p with
        roads := p.roads - 1,
        resources :=
          if g.phase == .setup || free then p.resources
          else { p.resources with
                 brick := p.resources.brick - 1,
                 lumber := p.resources.lumber - 1 } }) }

/-- Modelled from the spec: `placeRoad` — validate, then mutate; every
successful placement triggers the Longest Road Engine. -/
def placeRoad (g : Game) (pid : String) (t : Triple) (free : Bool) : ActionOut :=
  match canPlaceRoadErr g pid t free with
  | some e => ⟨false, some e, g⟩
  | none => ⟨true, none, updateLongestRoad (applyRoad g t free)⟩

/-- Modelled from the spec: city-upgrade preconditions — turn, phase, an
owned settlement at the target vertex (any equivalent key), resources
(2 grain 3 ore), remaining city pieces. -/
def canUpgradeToCityErr (g : Game) (pid : String) (t : Triple) : Option String :=
  if isCurrentPlayer g pid = false then some "Not your turn"
  else if (g.phase == .playing &&
      (g.turnPhase == .main || g.turnPhase == .specialBuild)) = false then
    some "Cannot build now"
  else if !ownsVertexAt g.vertices g.currentPlayerIndex (vertexPosT t) then
    some "You need a settlement there"
  else if !(g.vertices.any (fun p =>
      p.2.building == some .settlement &&
      p.2.owner == some g.currentPlayerIndex && (vertexPosT p.1 == vertexPosT t))) then
    some "You need a settlement there"
  else
    match g.players.get? g.currentPlayerIndex with
    | none => some "No such player"
    | some p =>
      if p.cities == 0 then some "No city pieces left"
      else if p.resources.grain < 2 || p.resources.ore < 3 then
        some "Insufficient resources"
      else none

/-- The city-upgrade mutation: convert in place, grant 1 additional
visible victory point. -/
def applyCity (g : Game) (t : Triple) : Game :=
  { g with
    vertices := g.vertices.map (fun p =>
      if (vertexPosT p.1 == vertexPosT t) && p.2.building == some .settlement then
        (p.1, { p.2 with building := some .city })
      else p),
    players := updateAt g.players g.currentPlayerIndex (fun p =>
      { p with
        cities := p.cities - 1,
        victoryPoints := p.victoryPoints + 1,
        resources := { p.resources with
                       grain := p.resources.grain - 2,
                       ore := p.resources.ore - 3 } }) }

/-- Modelled from the spec: `upgradeToCity`. -/
def upgradeToCity (g : Game) (pid : String) (t : Triple) : ActionOut :=
  match canUpgradeToCityErr g pid t with
  | some e => ⟨false, some e, g⟩
  | none => ⟨true, none, applyCity g t⟩

/-- The trivial point-cards are exempt from the one-per-turn rule. -/
def nontrivialDev (c : DevCard) : Bool :=
  c != .victoryPoint

/-- Modelled from the spec: development-card preconditions — turn, not
during setup, the card usable (in `developmentCards`, not `newDevCards`),
and for a non-trivial card the per-turn flag still clear. -/
def canPlayDevCardErr (g : Game) (pid : String) (c : DevCard) : Option String :=
  if isCurrentPlayer g pid = false then some "Not your turn"
  else if g.phase == .setup then some "Cannot play during setup"
  else
    match g.players.get? g.currentPlayerIndex with
    | none => some "No such player"
    | some p =>
      if !(p.developmentCards.contains c) then some "You do not have that card"
      else if nontrivialDev c && g.devCardPlayedThisTurn then
        some "Already played a development card this turn"
      else none

/-- The development-card mutation: remove the card, set the per-turn flag
for a non-trivial card, and for a knight transition to the robber phase. -/
def applyDevCard (g : Game) (c : DevCard) : Game :=
  { g with
    players := updateAt g.players g.currentPlayerIndex (fun p =>
      { p with developmentCards := p.developmentCards.erase c }),
    devCardPlayedThisTurn := g.devCardPlayedThisTurn || nontrivialDev c,
    turnPhase := if c == .knight then .robber else g.turnPhase }

/-- Modelled from the spec: `playDevCard`. -/
def playDevCard (g : Game) (pid : String) (c : DevCard) : ActionOut :=
  match canPlayDevCardErr g pid c with
  | some e => ⟨false, some e, g⟩
  | none => ⟨true, none, applyDevCard g c⟩

/-- Modelled from the spec: robber-move preconditions — turn, the robber
sub-phase, a target hex that exists and differs from the current one. -/
def canMoveRobberErr (g : Game) (pid : String) (hexKey : String) : Option String :=
  if isCurrentPlayer g pid = false then some "Not your turn"
  else if (g.turnPhase == .robber) = false then some "Not time to move the robber"
  else if hexKey == g.robber then some "Robber must move to a different hex"
  else if (g.hexes.lookup hexKey).isNone then some "No such hex"
  else none

/-- The robber-move mutation: relocate the robber, then return control to
the phase that preceded the interrupt, keyed off `hasRolledThisTurn` (the
optional steal draws from the injected randomness source and is outside
this model). -/
def applyMoveRobber (g : Game) (hexKey : String) : Game :=
  { g with
    robber := hexKey,
    turnPhase :=
      if g.hasRolledThisTurn = false then .roll
      else if g.discardingPlayers.isEmpty = false then .discard
      else .main }

/-- Modelled from the spec: `moveRobber`. -/
def moveRobber (g : Game) (pid : String) (hexKey : String) : ActionOut :=
  match canMoveRobberErr g pid hexKey with
  | some e => ⟨false, some e, g⟩
  | none => ⟨true, none, applyMoveRobber g hexKey⟩

/-- Total resources in a hand (for the 7-card discard limit). -/
def resourceTotal (r : Resources) : Nat :=
  r.lumber + r.brick + r.wool + r.grain + r.ore

/-- Modelled from the spec: the Resource Distribution Engine on the core
state — for every hex matching the roll and free of the robber, credit
the owner of a building at each of its six corners 1 (settlement) or 2
(city) of the hex's resource, deduplicating per `(hexKey, physical
vertex)`. -/
def distributeResources (g : Game) (roll : Nat) : Game :=
  { g with players :=
      (g.hexes.foldl
        (fun st (entry : String × DHex) =>
          if entry.2.number == some roll && entry.1 != g.robber then
            ([0, 1, 2, 3, 4, 5] : List Nat).foldl
              (fun (st : List (String × (Int × Int)) × List GPlayer) dir =>
                let pos := vertexPos entry.2.q entry.2.r dir
                let hit := g.vertices.findSome? (fun p =>
                  match p.2.building, p.2.owner with
                  | some b, some o =>
                    if vertexPosT p.1 == pos then some (o, b) else none
                  | _, _ => none)
                match hit, entry.2.resource with
                | some (o, b), some res =>
                  if (entry.1, pos) ∈ st.1 then st
                  else ((entry.1, pos) :: st.1,
                        updateAt st.2 o (fun p =>
                          { p with resources :=
                              addRes p.resources res (if b == .city then 2 else 1) }))
                | _, _ => st)
              st
          else st)
        ([], g.players)).2 }

/-- Modelled from the spec: roll-dice preconditions — turn and the roll
sub-phase.  The two dice values come from the injected randomness source
and are passed as arguments. -/
def canRollDiceErr (g : Game) (pid : String) : Option String :=
  if isCurrentPlayer g pid = false then some "Not your turn"
  else if (g.turnPhase == .roll) = false then some "Not time to roll"
  else none

/-- The roll mutation: set `hasRolledThisTurn`; on a 7 transition to
`discard` (if any player exceeds the hand limit) or `robber`; otherwise
distribute resources and transition to `main`. -/
def applyRollDice (g : Game) (d1 d2 : Nat) : Game :=
  let g := { g with hasRolledThisTurn := true }
  if d1 + d2 == 7 then
    let discarding := (List.range g.players.length).filter (fun i =>
      match g.players.get? i with
      | some p => decide (7 < resourceTotal p.resources)
      | none => false)
    { g with
      discardingPlayers := discarding,
      turnPhase := if discarding.isEmpty then .robber else .discard }
  else
    { distributeResources g (d1 + d2) with turnPhase := .main }

/-- Modelled from the spec: `rollDice`. -/
def rollDice (g : Game) (pid : String) (d1 d2 : Nat) : ActionOut :=
  match canRollDiceErr g pid with
  | some e => ⟨false, some e, g⟩
  | none => ⟨true, none, applyRollDice g d1 d2⟩

/-- Modelled from the spec: end-turn preconditions — turn and the `main`
(or `specialBuild`) sub-phase. -/
def canEndTurnErr (g : Game) (pid : String) : Option String :=
  if isCurrentPlayer g pid = false then some "Not your turn"
  else if (g.turnPhase == .main || g.turnPhase == .specialBuild) = false then
    some "Cannot end turn now"
  else none

/-- The end-turn mutation: reset the per-turn flags, promote
`newDevCards` to `developmentCards`, advance the player index, and start
the next turn in the roll sub-phase. -/
def applyEndTurn (g : Game) : Game :=
  { g with
    players := updateAt g.players g.currentPlayerIndex (fun p =>
      { p with
        developmentCards := p.developmentCards ++ p.newDevCards,
        newDevCards := [] }),
    hasRolledThisTurn := false,
    devCardPlayedThisTurn := false,
    currentPlayerIndex := (g.currentPlayerIndex + 1) % g.players.length,
    turnPhase := .roll }

/-- Modelled from the spec: `endTurn`. -/
def endTurn (g : Game) (pid : String) : ActionOut :=
  match canEndTurnErr g pid with
  | some e => ⟨false, some e, g⟩
  | none => ⟨true, none, applyEndTurn g⟩

/-- Modelled from the spec: the Player View Projector — a structurally
identical state with every non-viewer's `hiddenVictoryPoints` zeroed
while the game is in progress; once `phase = finished` all hidden points
are left queryable by every viewer. -/
def getPlayerView (g : Game) (pid : String) : Game :=
  let vi := g.players.findIdx? (fun p => p.id == pid)
  { g with players := g.players.mapIdx (fun i p =>
      if g.phase == .finished || vi == some i then p
      else { p with hiddenVictoryPoints := 0 }) }

/-! ## Families of game states used by the theorems -/

/-- Translation of a vertex position (proof machinery: the engine's
computations are invariant under board translation). -/
def shiftV (s v : Int × Int) : Int × Int :=
  (v.1 + s.1, v.2 + s.2)

/-- Translation of a physical edge. -/
def shiftE (s : Int × Int) (e : (Int × Int) × (Int × Int)) :
    (Int × Int) × (Int × Int) :=
  (shiftV s e.1, shiftV s e.2)

/-- The first `n` rim edges of the hex at `(q, r)`, all owned by player 0
(`n = 6` is the full cycle of tests 1.5/2.3b, `n = 5` the linear road of
tests 2.3/2.8). -/
def hexEdges (q r : Int) (n : Nat) : List (Triple × RoadInfo) :=
  (List.range n).map (fun d => (⟨q, r, d⟩, ⟨true, 0⟩))

/-- A two-player `playing`-phase game whose edge map is the full 6-edge
cycle around hex `(q, r)` owned by player 0, with the given vertex map. -/
def cycleGame (q r : Int) (vs : List (Triple × BuildingInfo)) : Game :=
  { players := [{ id := "p1" }, { id := "p2" }],
    edges := hexEdges q r 6,
    vertices := vs,
    phase := .playing }

/-- A two-player `playing`-phase game whose edge map is the 5-edge linear
road `e_q_r_0 … e_q_r_4` owned by player 0, who currently holds the
longest-road bonus, with the given vertex map. -/
def lineGame (q r : Int) (vs : List (Triple × BuildingInfo)) : Game :=
  { players := [{ id := "p1" }, { id := "p2" }],
    edges := hexEdges q r 5,
    vertices := vs,
    phase := .playing,
    longestRoadPlayer := some 0 }


/-- A one-player game in the robber sub-phase before any roll, with two
hexes and the robber on `0,0` (witness state for the robber-move claim). -/
def robberGame : Game :=
  { players := [{ id := "p1" }], phase := .playing, turnPhase := .robber,
    hexes := [("0,0", ⟨0, 0, none, none⟩), ("1,0", ⟨1, 0, none, none⟩)],
    robber := "0,0" }

/-- A two-player game where player 0 holds 2 hidden victory points
(witness state for the player-view claim). -/
def viewGame : Game :=
  { players := [{ id := "p1", hiddenVictoryPoints := 2 }, { id := "p2" }],
    phase := .playing }

/-- A one-player game in the main sub-phase where player 0 holds two
usable knights (witness state for the dev-card claim). -/
def devGame : Game :=
  { players := [{ id := "p1", developmentCards := [.knight, .knight] }],
    phase := .playing, turnPhase := .main }

/-! ## Theorems -/

/-- Translation is injective on positions. -/
theorem shiftV_injective (s : Int × Int) : Function.Injective (shiftV s) := by
  intro a b h
  simp only [shiftV, Prod.ext_iff] at h ⊢
  omega

/-- Translation is injective on physical edges. -/
theorem shiftE_injective (s : Int × Int) : Function.Injective (shiftE s) := by
  intro a b h
  have h1 : shiftV s a.1 = shiftV s b.1 := congrArg Prod.fst h
  have h2 : shiftV s a.2 = shiftV s b.2 := congrArg Prod.snd h
  exact Prod.ext (shiftV_injective s h1) (shiftV_injective s h2)

/-- Position equality tests are translation-invariant. -/
theorem shiftV_beq (s a b : Int × Int) :
    (shiftV s a == shiftV s b) = (a == b) := by
  rw [Bool.eq_iff_iff]
  simp only [beq_iff_eq]
  exact ⟨fun h => shiftV_injective s h, fun h => h ▸ rfl⟩

/-- Edge equality tests are translation-invariant. -/
theorem shiftE_beq (s : Int × Int) (a b : (Int × Int) × (Int × Int)) :
    (shiftE s a == shiftE s b) = (a == b) := by
  rw [Bool.eq_iff_iff]
  simp only [beq_iff_eq]
  exact ⟨fun h => shiftE_injective s h, fun h => h ▸ rfl⟩

/-- Erasing a translated edge from a translated list. -/
theorem map_erase_shiftE (s : Int × Int) (e : (Int × Int) × (Int × Int)) :
    ∀ l : List ((Int × Int) × (Int × Int)),
      (l.map (shiftE s)).erase (shiftE s e) = (l.erase e).map (shiftE s) := by
  intro l
  induction l with
  | nil => rfl
  | cons a l ih =>
    simp only [List.map_cons, List.erase_cons, shiftE_beq]
    by_cases h : (a == e) = true
    · simp [h]
    · simp only [Bool.not_eq_true] at h
      simp [h, ih]

/-- A vertex of hex `(q, r)` is the translate of the same vertex of hex
`(0, 0)` by `(2q + r, 3r)`. -/
theorem vertexPos_shift (q r : Int) (d : Nat) :
    vertexPos q r d = shiftV (2 * q + r, 3 * r) (vertexPos 0 0 d) := by
  simp only [vertexPos, shiftV, Prod.ext_iff]
  constructor <;> ring

/-- Pair canonicalization commutes with translation (the lexicographic
order is translation-invariant). -/
theorem pairKey_shift (s a b : Int × Int) :
    pairKey (shiftV s a) (shiftV s b) = shiftE s (pairKey a b) := by
  simp only [pairKey, shiftV, shiftE]
  split_ifs with h1 h2 h2 <;> first | rfl | (exfalso; omega)

/-- Canonical edges of hex `(q, r)` are translates of those of `(0, 0)`. -/
theorem canonEdge_shift (q r : Int) (d : Nat) :
    canonEdge ⟨q, r, d⟩ = shiftE (2 * q + r, 3 * r) (canonEdge ⟨0, 0, d⟩) := by
  simp only [canonEdge]
  rw [vertexPos_shift q r d, vertexPos_shift q r ((d + 1) % 6)]
  exact pairKey_shift _ _ _

/-- The longest-road depth-first search is translation-invariant. -/
theorem dfs_shift (s : Int × Int) (blocked : (Int × Int) → Bool) :
    ∀ (fuel : Nat) (edges : List ((Int × Int) × (Int × Int))) (v : Int × Int),
      dfs fuel (edges.map (shiftE s)) (shiftV s v) blocked
        = dfs fuel edges v (fun w => blocked (shiftV s w)) := by
  intro fuel
  induction fuel with
  | zero => intro edges v; rfl
  | succ n ih =>
    intro edges v
    simp only [dfs]
    have hpred : ((fun (e : (Int × Int) × (Int × Int)) =>
        e.1 == shiftV s v || e.2 == shiftV s v) ∘ shiftE s)
        = fun e => e.1 == v || e.2 == v := by
      funext e
      simp only [Function.comp, shiftE]
      rw [shiftV_beq, shiftV_beq]
    rw [List.filter_map, List.foldr_map]
    rw [show ((fun (e : (Int × Int) × (Int × Int)) =>
        e.1 == shiftV s v || e.2 == shiftV s v) ∘ shiftE s)
        = fun e => e.1 == v || e.2 == v from hpred]
    congr 1
    funext e acc
    have hw : (if (shiftE s e).1 = shiftV s v then (shiftE s e).2 else (shiftE s e).1)
        = shiftV s (if e.1 = v then e.2 else e.1) := by
      simp only [shiftE]
      split_ifs with h1 h2 h2
      · rfl
      · exact absurd (shiftV_injective s h1) h2
      · exact absurd (congrArg (shiftV s) h2) h1
      · rfl
    rw [hw, map_erase_shiftE, ih]

/-- Deduplication commutes with an injective map. -/
theorem dedup_map_of_injective {α β : Type} [DecidableEq α] [DecidableEq β]
    {f : α → β} (hf : Function.Injective f) :
    ∀ l : List α, (l.map f).dedup = l.dedup.map f := by
  intro l
  induction l with
  | nil => rfl
  | cons a l ih =>
    by_cases h : a ∈ l
    · rw [List.dedup_cons_of_mem h, List.map_cons,
        List.dedup_cons_of_mem ((List.mem_map_of_injective hf).mpr h), ih]
    · rw [List.map_cons, List.dedup_cons_of_not_mem
        (fun hm => h ((List.mem_map_of_injective hf).mp hm)),
        List.dedup_cons_of_not_mem h, List.map_cons, ih]

/-- The longest-road computation is translation-invariant. -/
theorem roadLength_shift (s : Int × Int)
    (edges : List ((Int × Int) × (Int × Int))) (blocked : (Int × Int) → Bool) :
    roadLength (edges.map (shiftE s)) blocked
      = roadLength edges (fun w => blocked (shiftV s w)) := by
  simp only [roadLength, List.map_map, List.length_map]
  rw [show (Prod.fst ∘ shiftE s) = shiftV s ∘ Prod.fst from rfl,
      show (Prod.snd ∘ shiftE s) = shiftV s ∘ Prod.snd from rfl,
      ← List.map_map (shiftV s) Prod.fst, ← List.map_map (shiftV s) Prod.snd,
      ← List.map_append, dedup_map_of_injective (shiftV_injective s),
      List.foldr_map]
  congr 1
  funext v acc
  rw [dfs_shift]

/-- Player 0's deduplicated physical roads on `hexEdges q r n` are the
translates of those at the origin hex. -/
theorem playerRoadEdges_hexEdges (q r : Int) (n : Nat) :
    playerRoadEdges (hexEdges q r n) 0
      = (((List.range n).map (fun d => canonEdge ⟨0, 0, d⟩)).dedup).map
          (shiftE (2 * q + r, 3 * r)) := by
  simp only [playerRoadEdges, hexEdges, List.filterMap_map]
  have h1 : ((fun (p : Triple × RoadInfo) =>
      if p.2.road && p.2.owner == 0 then some (canonEdge p.1) else none) ∘
        (fun d => ((⟨q, r, d⟩ : Triple), (⟨true, 0⟩ : RoadInfo))))
      = fun d => some (canonEdge ⟨q, r, d⟩) := by
    funext d
    simp
  rw [h1]
  rw [show (fun d => some (canonEdge (⟨q, r, d⟩ : Triple)))
      = some ∘ (fun d => canonEdge (⟨q, r, d⟩ : Triple)) from rfl,
    List.filterMap_eq_map]
  rw [show (fun d => canonEdge (⟨q, r, d⟩ : Triple))
      = shiftE (2 * q + r, 3 * r) ∘ (fun d => canonEdge (⟨0, 0, d⟩ : Triple))
      from funext fun d => canonEdge_shift q r d]
  rw [← List.map_map, dedup_map_of_injective (shiftE_injective _)]

/-- Player 1 owns no roads on `hexEdges q r n`. -/
theorem playerRoadEdges_hexEdges_one (q r : Int) (n : Nat) :
    playerRoadEdges (hexEdges q r n) 1 = [] := by
  simp [playerRoadEdges, hexEdges, List.filterMap_map, Function.comp]

/-- Player 0's road length on `hexEdges q r n` equals the origin-hex road
length against the pulled-back blocking predicate. -/
theorem roadLength_hexEdges (q r : Int) (n : Nat) (B : (Int × Int) → Bool) :
    roadLength (playerRoadEdges (hexEdges q r n) 0) B
      = roadLength (((List.range n).map (fun d => canonEdge ⟨0, 0, d⟩)).dedup)
          (fun w => B (shiftV (2 * q + r, 3 * r) w)) := by
  rw [playerRoadEdges_hexEdges, roadLength_shift]


/-- Every triple in the equivalence set of `(q, r, d)` denotes the same
physical vertex: its exact renderer position coincides. -/
theorem pos_of_equiv (q r : Int) (d : Nat) (hd : d < 6) :
    ∀ t ∈ getEquivalentVerticesLocal q r d, vertexPosT t = vertexPos q r d := by
  interval_cases d <;>
    simp [getEquivalentVerticesLocal, vertexPosT, vertexPos, vcx, vsy,
      Prod.ext_iff] <;>
    omega

/-- The equivalence set has exactly three elements for directions 0–5. -/
theorem equiv_length (q r : Int) (d : Nat) (hd : d < 6) :
    (getEquivalentVerticesLocal q r d).length = 3 := by
  interval_cases d <;> simp [getEquivalentVerticesLocal]

/-- Symmetry of the neighbor-offset table: whenever `t` is in the
equivalence set of `(q, r, d)`, `(q, r, d)` is in the equivalence set of
`t`. -/
theorem equiv_symm (q r : Int) (d : Nat) (hd : d < 6) :
    ∀ t ∈ getEquivalentVerticesLocal q r d,
      (⟨q, r, d⟩ : Triple) ∈ getEquivalentVerticesLocal t.q t.r t.dir := by
  interval_cases d <;> simp [getEquivalentVerticesLocal]


/-- Road lengths recomputed by the engine for a two-player game. -/
theorem playerLens_two (g : Game) (h : g.players.length = 2) :
    playerLens g
      = [roadLength (playerRoadEdges g.edges 0) (blockedFor g.vertices 0),
         roadLength (playerRoadEdges g.edges 1) (blockedFor g.vertices 1)] := by
  simp only [playerLens, h]
  rfl

/-- `updateLongestRoad` sets the holder by the award rule. -/
theorem update_lrp (g : Game) :
    (updateLongestRoad g).longestRoadPlayer
      = awardLongestRoad (playerLens g) g.longestRoadPlayer := rfl

/-- The recorded per-player road lengths after `updateLongestRoad` in a
two-player game. -/
theorem update_map_roadLength_two (g : Game) (p0 p1 : GPlayer)
    (hp : g.players = [p0, p1]) :
    (updateLongestRoad g).players.map (fun p => p.roadLength)
      = [(playerLens g).getD 0 0, (playerLens g).getD 1 0] := by
  simp only [updateLongestRoad, hp]
  simp [List.mapIdx_cons]

/-- C2: a player owning the full 6-edge cycle around any hex `(q, r)` has
`roadLength` exactly 6 after `updateLongestRoad`, and the value is
unchanged when a single opponent settlement is placed at any vertex of
the cycle, stored under any equivalent key for that vertex. -/
theorem cycle_roadLength_six :
    ∀ (q r : Int) (dv : Nat) (t : Triple) (o : Nat),
      dv < 6 → t ∈ getEquivalentVerticesLocal q r dv → o ≠ 0 →
      ((updateLongestRoad (cycleGame q r [])).players.map
          (fun p => p.roadLength)) = [6, 0]
      ∧ ((updateLongestRoad
            (cycleGame q r [(t, ⟨some .settlement, some o⟩)])).players.map
          (fun p => p.roadLength)) = [6, 0] := by
  intro q r dv t o hdv ht ho
  constructor
  · rw [update_map_roadLength_two (cycleGame q r []) { id := "p1" } { id := "p2" } rfl,
      playerLens_two (cycleGame q r []) rfl]
    simp only [List.getD_cons_zero, List.getD_cons_succ]
    rw [show (cycleGame q r []).edges = hexEdges q r 6 from rfl]
    rw [show (cycleGame q r []).vertices = ([] : List (Triple × BuildingInfo)) from rfl]
    rw [roadLength_hexEdges, playerRoadEdges_hexEdges_one]
    rw [show (fun w => blockedFor ([] : List (Triple × BuildingInfo)) 0
        (shiftV (2 * q + r, 3 * r) w)) = fun _ => false from rfl]
    decide
  · rw [update_map_roadLength_two (cycleGame q r [(t, ⟨some .settlement, some o⟩)])
        { id := "p1" } { id := "p2" } rfl,
      playerLens_two (cycleGame q r [(t, ⟨some .settlement, some o⟩)]) rfl]
    simp only [List.getD_cons_zero, List.getD_cons_succ]
    rw [show (cycleGame q r [(t, ⟨some .settlement, some o⟩)]).edges
        = hexEdges q r 6 from rfl]
    rw [show (cycleGame q r [(t, ⟨some .settlement, some o⟩)]).vertices
        = [(t, ⟨some .settlement, some o⟩)] from rfl]
    rw [roadLength_hexEdges, playerRoadEdges_hexEdges_one]
    rw [show roadLength [] (blockedFor [(t, (⟨some .settlement, some o⟩ : BuildingInfo))] 1)
        = 0 from rfl]
    have hne : (some o != some (0 : Nat)) = true := by
      simp [bne_iff_ne, ho]
    have hB : blockedFor [(t, (⟨some .settlement, some o⟩ : BuildingInfo))] 0
        = fun v => (vertexPos q r dv == v) := by
      funext v
      simp [blockedFor, hne, pos_of_equiv q r dv hdv t ht]
    have hB2 : (fun w => blockedFor [(t, (⟨some .settlement, some o⟩ : BuildingInfo))] 0
        (shiftV (2 * q + r, 3 * r) w)) = fun w => (vertexPos 0 0 dv == w) := by
      funext w
      simp only [hB]
      rw [vertexPos_shift q r dv, shiftV_beq]
    rw [hB2]
    interval_cases dv <;> decide

/-- Witness for C2 at hex `(0, 0)`, cut vertex 3, opponent player 1. -/
theorem cycle_roadLength_six_witness :
    ((3 : Nat) < 6
      ∧ (⟨0, 0, 3⟩ : Triple) ∈ getEquivalentVerticesLocal 0 0 3
      ∧ (1 : Nat) ≠ 0)
    ∧ (((updateLongestRoad (cycleGame 0 0 [])).players.map
          (fun p => p.roadLength)) = [6, 0]
      ∧ ((updateLongestRoad
            (cycleGame 0 0 [(⟨0, 0, 3⟩, ⟨some .settlement, some 1⟩)])).players.map
          (fun p => p.roadLength)) = [6, 0]) :=
  ⟨⟨by decide, by decide, by decide⟩,
    cycle_roadLength_six 0 0 3 ⟨0, 0, 3⟩ 1 (by decide) (by decide) (by decide)⟩

/-- C3: a 5-edge linear road at any hex `(q, r)` whose holder is player 0
is cut by an opponent settlement at its internal vertex 2 (under any
equivalent key): the recomputed `roadLength` is the longer of the two
resulting segments (`max 2 3 = 3`), strictly less than the pre-cut length
5, and since it drops below 5 the bonus is revoked to no holder even
though no other player has any road. -/
theorem linear_cut_revokes_bonus :
    ∀ (q r : Int) (t : Triple) (o : Nat),
      t ∈ getEquivalentVerticesLocal q r 2 → o ≠ 0 →
      ((updateLongestRoad (lineGame q r [])).players.map
          (fun p => p.roadLength)) = [5, 0]
      ∧ ((updateLongestRoad
            (lineGame q r [(t, ⟨some .settlement, some o⟩)])).players.map
          (fun p => p.roadLength)) = [max 2 3, 0]
      ∧ max 2 3 < 5
      ∧ (updateLongestRoad
            (lineGame q r [(t, ⟨some .settlement, some o⟩)])).longestRoadPlayer
          = none := by
  intro q r t o ht ho
  have h5 : playerLens (lineGame q r []) = [5, 0] := by
    rw [playerLens_two (lineGame q r []) rfl]
    rw [show (lineGame q r []).edges = hexEdges q r 5 from rfl]
    rw [show (lineGame q r []).vertices = ([] : List (Triple × BuildingInfo)) from rfl]
    rw [roadLength_hexEdges, playerRoadEdges_hexEdges_one]
    rw [show (fun w => blockedFor ([] : List (Triple × BuildingInfo)) 0
        (shiftV (2 * q + r, 3 * r) w)) = fun _ => false from rfl]
    decide
  have h3 : playerLens (lineGame q r [(t, ⟨some .settlement, some o⟩)]) = [3, 0] := by
    rw [playerLens_two (lineGame q r [(t, ⟨some .settlement, some o⟩)]) rfl]
    rw [show (lineGame q r [(t, ⟨some .settlement, some o⟩)]).edges
        = hexEdges q r 5 from rfl]
    rw [show (lineGame q r [(t, ⟨some .settlement, some o⟩)]).vertices
        = [(t, ⟨some .settlement, some o⟩)] from rfl]
    rw [roadLength_hexEdges, playerRoadEdges_hexEdges_one]
    rw [show roadLength [] (blockedFor [(t, (⟨some .settlement, some o⟩ : BuildingInfo))] 1)
        = 0 from rfl]
    have hne : (some o != some (0 : Nat)) = true := by
      simp [bne_iff_ne, ho]
    have hB : blockedFor [(t, (⟨some .settlement, some o⟩ : BuildingInfo))] 0
        = fun v => (vertexPos q r 2 == v) := by
      funext v
      simp [blockedFor, hne, pos_of_equiv q r 2 (by norm_num) t ht]
    have hB2 : (fun w => blockedFor [(t, (⟨some .settlement, some o⟩ : BuildingInfo))] 0
        (shiftV (2 * q + r, 3 * r) w)) = fun w => (vertexPos 0 0 2 == w) := by
      funext w
      simp only [hB]
      rw [vertexPos_shift q r 2, shiftV_beq]
    rw [hB2]
    decide
  refine ⟨?_, ?_, by decide, ?_⟩
  · rw [update_map_roadLength_two (lineGame q r []) { id := "p1" } { id := "p2" } rfl, h5]
    decide
  · rw [update_map_roadLength_two (lineGame q r [(t, ⟨some .settlement, some o⟩)])
        { id := "p1" } { id := "p2" } rfl, h3]
    decide
  · rw [update_lrp, h3,
      show (lineGame q r [(t, ⟨some .settlement, some o⟩)]).longestRoadPlayer
        = some 0 from rfl]
    decide

/-- Witness for C3 at hex `(0, 0)` with the settlement stored under the
equivalent key `v_1_0_4` of `v_0_0_2`. -/
theorem linear_cut_revokes_bonus_witness :
    ((⟨1, 0, 4⟩ : Triple) ∈ getEquivalentVerticesLocal 0 0 2 ∧ (1 : Nat) ≠ 0)
    ∧ (((updateLongestRoad (lineGame 0 0 [])).players.map
          (fun p => p.roadLength)) = [5, 0]
      ∧ ((updateLongestRoad
            (lineGame 0 0 [(⟨1, 0, 4⟩, ⟨some .settlement, some 1⟩)])).players.map
          (fun p => p.roadLength)) = [max 2 3, 0]
      ∧ max 2 3 < 5
      ∧ (updateLongestRoad
            (lineGame 0 0 [(⟨1, 0, 4⟩, ⟨some .settlement, some 1⟩)])).longestRoadPlayer
          = none) :=
  ⟨⟨by decide, by decide⟩,
    linear_cut_revokes_bonus 0 0 ⟨1, 0, 4⟩ 1 (by decide) (by decide)⟩


/-- C4: two adjacent hexes `(0,0)` and `(1,0)` with the same resource and
the same number `n` share one physical vertex carrying player 0's
building, stored under any equivalent key; on a roll of `n` with the
robber elsewhere the player gains exactly 2 lumber for a settlement and
exactly 4 for a city (1 or 2 per hex, credited independently per hex);
with the robber on one of the two hexes, only the unblocked hex pays. -/
theorem shared_vertex_payout :
    ∀ (n c : Nat) (b : Building) (t : Triple),
      t ∈ getEquivalentVerticesLocal 0 0 1 →
      (∀ robber : String, robber ≠ "0,0" → robber ≠ "1,0" →
        ((simulateDistributeResources (sharedVertexGame n c b t robber) n).players.headD
            {}).lumber = c + 2 * (if b = .city then 2 else 1))
      ∧ (∀ robber ∈ (["0,0", "1,0"] : List String),
        ((simulateDistributeResources (sharedVertexGame n c b t robber) n).players.headD
            {}).lumber = c + (if b = .city then 2 else 1)) := by
  intro n c b t ht
  simp only [getEquivalentVerticesLocal, reduceIte] at ht
  constructor
  · intro robber h0 h1
    fin_cases ht <;> cases b <;>
      (unfold sharedVertexGame simulateDistributeResources
       simp only [List.foldl_cons, List.foldl_nil]
       rw [if_pos ⟨trivial, Ne.symm h1⟩, if_pos ⟨trivial, Ne.symm h0⟩]
       rfl)
  · intro robber hr
    fin_cases hr
    · fin_cases ht <;> cases b <;>
        (unfold sharedVertexGame simulateDistributeResources
         simp only [List.foldl_cons, List.foldl_nil]
         rw [if_pos ⟨trivial, by decide⟩, if_neg (fun h => h.2 rfl)]
         rfl)
    · fin_cases ht <;> cases b <;>
        (unfold sharedVertexGame simulateDistributeResources
         simp only [List.foldl_cons, List.foldl_nil]
         rw [if_neg (fun h => h.2 rfl), if_pos ⟨trivial, by decide⟩]
         rfl)

/-- Witness for C4: roll 8, settlement under key `v_0_0_1`, robber on
`2,0`; the settlement is credited once per hex for a total of 2. -/
theorem shared_vertex_payout_witness :
    ((⟨0, 0, 1⟩ : Triple) ∈ getEquivalentVerticesLocal 0 0 1
      ∧ ("2,0" : String) ≠ "0,0" ∧ ("2,0" : String) ≠ "1,0")
    ∧ ((simulateDistributeResources
          (sharedVertexGame 8 0 .settlement ⟨0, 0, 1⟩ "2,0") 8).players.headD
        {}).lumber = 0 + 2 * (if Building.settlement = Building.city then 2 else 1) :=
  ⟨⟨by decide, by decide, by decide⟩,
    (shared_vertex_payout 8 0 .settlement ⟨0, 0, 1⟩ (by decide)).1 "2,0"
      (by decide) (by decide)⟩

/-- C9: for directions 0–5, `equivalentVertices` returns at most 3
coordinate triples, every one of them denoting the same physical vertex
(equal exact renderer positions), membership is symmetric, and therefore
`areVerticesEqual` is a symmetric membership test. -/
theorem vertex_equivalence_properties :
    ∀ (q r : Int) (d : Nat), d < 6 →
      (getEquivalentVerticesLocal q r d).length ≤ 3
      ∧ (∀ t ∈ getEquivalentVerticesLocal q r d, vertexPosT t = vertexPos q r d)
      ∧ (∀ t ∈ getEquivalentVerticesLocal q r d,
          (⟨q, r, d⟩ : Triple) ∈ getEquivalentVerticesLocal t.q t.r t.dir)
      ∧ (∀ t : Triple, areVerticesEqual ⟨q, r, d⟩ t = true →
          areVerticesEqual t ⟨q, r, d⟩ = true) := by
  intro q r d hd
  refine ⟨le_of_eq (equiv_length q r d hd), pos_of_equiv q r d hd,
    equiv_symm q r d hd, ?_⟩
  intro t hmem
  simp only [areVerticesEqual, List.contains, List.elem_iff] at hmem ⊢
  exact equiv_symm q r d hd t hmem

/-- Witness for C9 at `(q, r, d) = (0, 0, 0)`. -/
theorem vertex_equivalence_properties_witness :
    (0 : Nat) < 6
    ∧ ((getEquivalentVerticesLocal 0 0 0).length ≤ 3
      ∧ (∀ t ∈ getEquivalentVerticesLocal 0 0 0, vertexPosT t = vertexPos 0 0 0)
      ∧ (∀ t ∈ getEquivalentVerticesLocal 0 0 0,
          (⟨0, 0, 0⟩ : Triple) ∈ getEquivalentVerticesLocal t.q t.r t.dir)
      ∧ (∀ t : Triple, areVerticesEqual ⟨0, 0, 0⟩ t = true →
          areVerticesEqual t ⟨0, 0, 0⟩ = true)) :=
  ⟨by decide, vertex_equivalence_properties 0 0 0 (by decide)⟩

/-- C10: an entry whose key the regex search parses to `none` is silently
skipped by each of the renderer's derived computations (`roads`,
`clickableEdges`, `uniqueVertices`); all three are total Lean functions
over arbitrary key maps, so no malformed key can make them fail. -/
theorem renderer_skips_malformed_keys :
    ∀ {α : Type} (hexes : List (String × α)) (kv ke : String) (vv : VertexVal)
      (ev : EdgeVal) (restv : List (String × VertexVal))
      (reste : List (String × EdgeVal)),
      parseVertexKey kv = none → parseEdgeKey ke = none →
      roads ((ke, ev) :: reste) = roads reste
      ∧ clickableEdges ((ke, ev) :: reste) = clickableEdges reste
      ∧ uniqueVertices hexes ((kv, vv) :: restv) = uniqueVertices hexes restv := by
  intro α hexes kv ke vv ev restv reste hkv hke
  refine ⟨?_, ?_, ?_⟩
  · cases hr : ev.road <;> simp [roads, List.filterMap_cons, hr, hke]
  · simp only [clickableEdges]
    rw [List.filterMap_cons_none (by cases hr : ev.road <;> simp [hke, hr])]
    rw [List.foldl_cons]
    simp only [hke]
  · simp [uniqueVertices, List.foldl_cons, hkv]

/-- Witness for C10 on the malformed key `"hello"` against one-entry
well-formed maps. -/
theorem renderer_skips_malformed_keys_witness :
    (parseVertexKey "hello" = none ∧ parseEdgeKey "hello" = none)
    ∧ (roads (("hello", ⟨true, 1⟩) :: [("e_0_0_0", ⟨true, 0⟩)])
        = roads [("e_0_0_0", ⟨true, 0⟩)]
      ∧ clickableEdges (("hello", ⟨true, 1⟩) :: [("e_0_0_0", ⟨true, 0⟩)])
        = clickableEdges [("e_0_0_0", ⟨true, 0⟩)]
      ∧ uniqueVertices [("0,0", 1)]
          (("hello", ⟨none, 0⟩) :: [("v_0_0_0", ⟨some .settlement, 0⟩)])
        = uniqueVertices [("0,0", 1)] [("v_0_0_0", ⟨some .settlement, 0⟩)]) :=
  ⟨⟨rfl, rfl⟩,
    renderer_skips_malformed_keys [("0,0", 1)] "hello" "hello" ⟨none, 0⟩
      ⟨true, 1⟩ [("v_0_0_0", ⟨some .settlement, 0⟩)] [("e_0_0_0", ⟨true, 0⟩)]
      rfl rfl⟩


/-- `getD` at an in-range index is a member. -/
theorem getD_mem_helper (lens : List Nat) (k : Nat) (hk : k < lens.length) :
    lens.getD k 0 ∈ lens := by
  rw [List.getD_eq_getElem?_getD, List.getElem?_eq_getElem hk]
  exact List.getElem_mem hk

/-- What a `findStrictlyLongest` hit means: length at least 5 and strictly
above every other player. -/
theorem fsl_spec (lens : List Nat) (p : Nat)
    (h : findStrictlyLongest lens = some p) :
    5 ≤ lens.getD p 0 ∧ p < lens.length ∧
      ∀ j < lens.length, j ≠ p → lens.getD j 0 < lens.getD p 0 := by
  simp only [findStrictlyLongest] at h
  have hpred := List.find?_some h
  have hmem := List.mem_of_find?_eq_some h
  simp only [List.mem_range] at hmem
  simp only [decide_eq_true_eq, List.mem_range] at hpred
  exact ⟨hpred.1, hmem, fun j hj hne => hpred.2 j hj hne⟩

/-- Two distinct players tied at the maximum leave `findStrictlyLongest`
empty. -/
theorem fsl_none_of_tie (lens : List Nat) (i j : Nat)
    (hi : i < lens.length) (hj : j < lens.length) (hij : i ≠ j)
    (heq : lens.getD i 0 = lens.getD j 0)
    (hmax : ∀ l ∈ lens, l ≤ lens.getD i 0) :
    findStrictlyLongest lens = none := by
  simp only [findStrictlyLongest]
  rw [List.find?_eq_none]
  intro k hk
  simp only [List.mem_range] at hk
  simp only [decide_eq_true_eq]
  rintro ⟨h5, hall⟩
  have hkmem := getD_mem_helper lens k hk
  by_cases hki : k = i
  · subst hki
    have := hall j (List.mem_range.mpr hj) (Ne.symm hij)
    omega
  · have h1 := hall i (List.mem_range.mpr hi) (fun he => hki he.symm)
    have h2 := hmax _ hkmem
    omega

/-- A holder whose length is at least 5 and still maximal keeps the bonus. -/
theorem award_keep (lens : List Nat) (h : Nat)
    (h5 : 5 ≤ lens.getD h 0) (hmax : ∀ l ∈ lens, l ≤ lens.getD h 0) :
    awardLongestRoad lens (some h) = some h := by
  simp only [awardLongestRoad]
  rw [if_pos ⟨h5, hmax⟩]

/-- Any award that changes hands comes from `findStrictlyLongest`. -/
theorem award_new (lens : List Nat) (cur : Option Nat) (p : Nat)
    (h : awardLongestRoad lens cur = some p) (hne : cur ≠ some p) :
    findStrictlyLongest lens = some p := by
  cases cur with
  | none => simpa [awardLongestRoad] using h
  | some h0 =>
    simp only [awardLongestRoad] at h
    split_ifs at h with hc
    · exact absurd h hne
    · exact h

/-- The lengths the engine recomputes are the lengths it records. -/
theorem update_map_roadLength (g : Game) :
    (updateLongestRoad g).players.map (fun p => p.roadLength) = playerLens g := by
  apply List.ext_getElem
  · simp [updateLongestRoad, playerLens]
  · intro i h1 h2
    simp only [updateLongestRoad, List.getElem_map, List.getElem_mapIdx]
    rw [List.getD_eq_getElem?_getD, List.getElem?_eq_getElem h2]
    rfl

/-- `getD` at an in-range index is the indexed element. -/
theorem getD_helper_eq (lens : List Nat) (j : Nat) (hj : j < lens.length) :
    lens.getD j 0 = lens[j] := by
  rw [List.getD_eq_getElem?_getD, List.getElem?_eq_getElem hj]
  rfl

/-- Completeness of `findStrictlyLongest`: the strictly longest player of
length at least 5 is found. -/
theorem fsl_complete (lens : List Nat) (p : Nat) (hp : p < lens.length)
    (h5 : 5 ≤ lens.getD p 0)
    (hstrict : ∀ j < lens.length, j ≠ p → lens.getD j 0 < lens.getD p 0) :
    findStrictlyLongest lens = some p := by
  simp only [findStrictlyLongest]
  rcases hfs : (List.range lens.length).find? (fun i =>
      decide (5 ≤ lens.getD i 0 ∧
        ∀ j ∈ List.range lens.length, j ≠ i → lens.getD j 0 < lens.getD i 0))
    with _ | k
  · exfalso
    rw [List.find?_eq_none] at hfs
    refine absurd ?_ (hfs p (List.mem_range.mpr hp))
    simp only [decide_eq_true_eq, List.mem_range]
    exact ⟨h5, fun j hj hne => hstrict j hj hne⟩
  · have hk := List.find?_some hfs
    have hkmem := List.mem_of_find?_eq_some hfs
    simp only [List.mem_range] at hkmem
    simp only [decide_eq_true_eq, List.mem_range] at hk
    by_cases hkp : k = p
    · rw [hkp]
    · exfalso
      have h1 := hk.2 p hp (fun he => hkp he.symm)
      have h2 := hstrict k hkmem hkp
      omega

/-- The award rule always assigns the bonus to a strictly longest player
of length at least 5, whoever held it before: either that player is the
holder and keeps it, or the holder cannot be tied-or-maximal and the
search finds the strictly longest player. -/
theorem award_to_strictly_longest (lens : List Nat) (cur : Option Nat) (p : Nat)
    (hp : p < lens.length) (h5 : 5 ≤ lens.getD p 0)
    (hstrict : ∀ j < lens.length, j ≠ p → lens.getD j 0 < lens.getD p 0) :
    awardLongestRoad lens cur = some p := by
  have hmax : ∀ l ∈ lens, l ≤ lens.getD p 0 := by
    intro l hl
    obtain ⟨j, hj, rfl⟩ := List.mem_iff_getElem.mp hl
    rw [← getD_helper_eq lens j hj]
    by_cases hjp : j = p
    · rw [hjp]
    · exact le_of_lt (hstrict j hj hjp)
  cases cur with
  | none => exact fsl_complete lens p hp h5 hstrict
  | some h =>
    by_cases hhp : h = p
    · subst hhp
      simp only [awardLongestRoad]
      rw [if_pos ⟨h5, hmax⟩]
    · have hcond : ¬(5 ≤ lens.getD h 0 ∧ ∀ l ∈ lens, l ≤ lens.getD h 0) := by
        rintro ⟨hh5, hhmax⟩
        by_cases hhl : h < lens.length
        · have h1 := hstrict h hhl hhp
          have h2 := hhmax _ (getD_mem_helper lens p hp)
          omega
        · rw [List.getD_eq_getElem?_getD,
            List.getElem?_eq_none (Nat.le_of_not_lt hhl)] at hh5
          exact absurd hh5 (by decide)
      simp only [awardLongestRoad]
      rw [if_neg hcond]
      exact fsl_complete lens p hp h5 hstrict

/-- C1: after `updateLongestRoad` the bonus is held per the award rule —
the recorded lengths are the recomputed ones; the bonus belongs to the
player whose road length is strictly the longest and at least 5, whoever
held it before; a holder whose length is at least 5 and tied-or-maximal
keeps the bonus; the bonus moves to a player other than the previous
holder only when that player's length is at least 5 and strictly exceeds
every other player's (in particular the previous holder's); and with no
current holder, two or more players tied at the maximum (even at 5 or
more) leave `longestRoadPlayer` empty. -/
theorem longest_road_award_rule :
    ∀ g : Game,
      ((updateLongestRoad g).players.map (fun p => p.roadLength) = playerLens g)
      ∧ (∀ p, p < (playerLens g).length →
          5 ≤ (playerLens g).getD p 0 →
          (∀ j < (playerLens g).length, j ≠ p →
            (playerLens g).getD j 0 < (playerLens g).getD p 0) →
          (updateLongestRoad g).longestRoadPlayer = some p)
      ∧ (∀ h, g.longestRoadPlayer = some h →
          5 ≤ (playerLens g).getD h 0 →
          (∀ l ∈ playerLens g, l ≤ (playerLens g).getD h 0) →
          (updateLongestRoad g).longestRoadPlayer = some h)
      ∧ (∀ p, (updateLongestRoad g).longestRoadPlayer = some p →
          g.longestRoadPlayer ≠ some p →
          5 ≤ (playerLens g).getD p 0 ∧ p < (playerLens g).length ∧
            ∀ j < (playerLens g).length, j ≠ p →
              (playerLens g).getD j 0 < (playerLens g).getD p 0)
      ∧ (g.longestRoadPlayer = none →
          ∀ i j, i < (playerLens g).length → j < (playerLens g).length →
            i ≠ j → (playerLens g).getD i 0 = (playerLens g).getD j 0 →
            (∀ l ∈ playerLens g, l ≤ (playerLens g).getD i 0) →
            (updateLongestRoad g).longestRoadPlayer = none) := by
  intro g
  refine ⟨update_map_roadLength g, ?_, ?_, ?_, ?_⟩
  · intro p hp h5 hstrict
    rw [update_lrp]
    exact award_to_strictly_longest _ g.longestRoadPlayer p hp h5 hstrict
  · intro h hcur h5 hmax
    rw [update_lrp, hcur]
    exact award_keep _ h h5 hmax
  · intro p hres hne
    rw [update_lrp] at hres
    exact fsl_spec _ p (award_new _ _ p hres hne)
  · intro hcur i j hi hj hij heq hmax
    rw [update_lrp, hcur]
    exact fsl_none_of_tie _ i j hi hj hij heq hmax

/-- Witness for C1: with no current holder, the strictly longest player
(the 6-cycle owner, lengths `[6, 0]`) receives the bonus; and the holder
of a tied-or-maximal 5-road line keeps it. -/
theorem longest_road_award_rule_witness :
    ((0 : Nat) < (playerLens (cycleGame 0 0 [])).length
      ∧ 5 ≤ (playerLens (cycleGame 0 0 [])).getD 0 0
      ∧ (∀ j < (playerLens (cycleGame 0 0 [])).length, j ≠ 0 →
          (playerLens (cycleGame 0 0 [])).getD j 0
            < (playerLens (cycleGame 0 0 [])).getD 0 0)
      ∧ (cycleGame 0 0 []).longestRoadPlayer = none
      ∧ (updateLongestRoad (cycleGame 0 0 [])).longestRoadPlayer = some 0)
    ∧ ((lineGame 0 0 []).longestRoadPlayer = some 0
      ∧ 5 ≤ (playerLens (lineGame 0 0 [])).getD 0 0
      ∧ (∀ l ∈ playerLens (lineGame 0 0 []),
          l ≤ (playerLens (lineGame 0 0 [])).getD 0 0)
      ∧ (updateLongestRoad (lineGame 0 0 [])).longestRoadPlayer = some 0) :=
  ⟨⟨by decide, by decide, by decide, rfl,
      (longest_road_award_rule (cycleGame 0 0 [])).2.1 0 (by decide) (by decide)
        (by decide)⟩,
    ⟨rfl, by decide, by decide,
      (longest_road_award_rule (lineGame 0 0 [])).2.2.1 0 rfl (by decide)
        (by decide)⟩⟩

/-- C5: every action validator leaves the game state untouched when it
returns an unsuccessful result — the checks precede every mutation, so a
failed call repeated on the same state yields the same result. -/
theorem validators_unchanged_on_failure :
    ∀ (g : Game) (pid : String) (t : Triple) (b free : Bool) (c : DevCard)
      (hk : String) (d1 d2 : Nat),
      ((placeSettlement g pid t b).success = false →
        (placeSettlement g pid t b).game = g)
      ∧ ((placeRoad g pid t free).success = false → (placeRoad g pid t free).game = g)
      ∧ ((upgradeToCity g pid t).success = false → (upgradeToCity g pid t).game = g)
      ∧ ((playDevCard g pid c).success = false → (playDevCard g pid c).game = g)
      ∧ ((moveRobber g pid hk).success = false → (moveRobber g pid hk).game = g)
      ∧ ((rollDice g pid d1 d2).success = false → (rollDice g pid d1 d2).game = g)
      ∧ ((endTurn g pid).success = false → (endTurn g pid).game = g) := by
  intro g pid t b free c hk d1 d2
  refine ⟨?_, ?_, ?_, ?_, ?_, ?_, ?_⟩
  · rcases hv : canPlaceSettlementErr g pid t b with _ | e <;>
      simp [placeSettlement, hv]
  · rcases hv : canPlaceRoadErr g pid t free with _ | e <;>
      simp [placeRoad, hv]
  · rcases hv : canUpgradeToCityErr g pid t with _ | e <;>
      simp [upgradeToCity, hv]
  · rcases hv : canPlayDevCardErr g pid c with _ | e <;>
      simp [playDevCard, hv]
  · rcases hv : canMoveRobberErr g pid hk with _ | e <;>
      simp [moveRobber, hv]
  · rcases hv : canRollDiceErr g pid with _ | e <;>
      simp [rollDice, hv]
  · rcases hv : canEndTurnErr g pid with _ | e <;>
      simp [endTurn, hv]

/-- Witness for C5: seven failing calls on concrete states leave them
unchanged (building actions blocked in the roll sub-phase, a card not in
hand, the robber outside its sub-phase, a roll by the wrong player, an
end-turn outside `main`). -/
theorem validators_unchanged_on_failure_witness :
    (placeSettlement (lineGame 0 0 []) "p1" ⟨0, 0, 0⟩ false).game = lineGame 0 0 []
    ∧ (placeRoad (lineGame 0 0 []) "p1" ⟨0, 0, 0⟩ false).game = lineGame 0 0 []
    ∧ (upgradeToCity (lineGame 0 0 []) "p1" ⟨0, 0, 0⟩).game = lineGame 0 0 []
    ∧ (playDevCard (lineGame 0 0 []) "p1" .knight).game = lineGame 0 0 []
    ∧ (moveRobber (lineGame 0 0 []) "p1" "0,0").game = lineGame 0 0 []
    ∧ (rollDice (lineGame 0 0 []) "p2" 3 4).game = lineGame 0 0 []
    ∧ (endTurn (lineGame 0 0 []) "p1").game = lineGame 0 0 [] :=
  ⟨(validators_unchanged_on_failure (lineGame 0 0 []) "p1" ⟨0, 0, 0⟩ false false
      .knight "0,0" 3 4).1 (by decide),
   (validators_unchanged_on_failure (lineGame 0 0 []) "p1" ⟨0, 0, 0⟩ false false
      .knight "0,0" 3 4).2.1 (by decide),
   (validators_unchanged_on_failure (lineGame 0 0 []) "p1" ⟨0, 0, 0⟩ false false
      .knight "0,0" 3 4).2.2.1 (by decide),
   (validators_unchanged_on_failure (lineGame 0 0 []) "p1" ⟨0, 0, 0⟩ false false
      .knight "0,0" 3 4).2.2.2.1 (by decide),
   (validators_unchanged_on_failure (lineGame 0 0 []) "p1" ⟨0, 0, 0⟩ false false
      .knight "0,0" 3 4).2.2.2.2.1 (by decide),
   (validators_unchanged_on_failure (lineGame 0 0 []) "p2" ⟨0, 0, 0⟩ false false
      .knight "0,0" 3 4).2.2.2.2.2.1 (by decide),
   (validators_unchanged_on_failure (lineGame 0 0 []) "p1" ⟨0, 0, 0⟩ false false
      .knight "0,0" 3 4).2.2.2.2.2.2 (by decide)⟩

/-- C6: after a successful `moveRobber` from the robber sub-phase, the
turn phase is `roll` when the dice have not been rolled this turn, else
`discard` when a rolled 7 left a pending discard obligation, else `main`. -/
theorem moveRobber_returns_phase :
    ∀ (g : Game) (pid hk : String),
      g.turnPhase = .robber → (moveRobber g pid hk).success = true →
      (moveRobber g pid hk).game.turnPhase
        = (if g.hasRolledThisTurn = false then .roll
           else if g.discardingPlayers.isEmpty = false then .discard
           else .main) := by
  intro g pid hk hphase hs
  rcases hv : canMoveRobberErr g pid hk with _ | e
  · simp [moveRobber, hv, applyMoveRobber]
  · simp [moveRobber, hv] at hs

/-- Witness for C6: a knight played before rolling moves the robber and
returns to the roll sub-phase. -/
theorem moveRobber_returns_phase_witness :
    (robberGame.turnPhase = TurnPhase.robber
      ∧ (moveRobber robberGame "p1" "1,0").success = true)
    ∧ (moveRobber robberGame "p1" "1,0").game.turnPhase
      = (if robberGame.hasRolledThisTurn = false then .roll
         else if robberGame.discardingPlayers.isEmpty = false then .discard
         else .main) :=
  ⟨⟨rfl, by decide⟩, moveRobber_returns_phase robberGame "p1" "1,0" rfl (by decide)⟩

/-- C7: `getPlayerView` zeroes every non-viewer's hidden victory points
while the game is in progress, keeps the viewer's own, and once the game
is finished leaves every player's hidden points queryable by any viewer. -/
theorem getPlayerView_hides_hidden_vp :
    ∀ (g : Game) (pid : String) (j : Nat), j < g.players.length →
      (g.phase = .playing →
        ((getPlayerView g pid).players.getD j { id := "" }).hiddenVictoryPoints
          = (if g.players.findIdx? (fun p => p.id == pid) = some j
             then (g.players.getD j { id := "" }).hiddenVictoryPoints else 0))
      ∧ (g.phase = .finished →
        ((getPlayerView g pid).players.getD j { id := "" }).hiddenVictoryPoints
          = (g.players.getD j { id := "" }).hiddenVictoryPoints) := by
  intro g pid j hj
  have hlen : j < (getPlayerView g pid).players.length := by
    simp [getPlayerView, hj]
  have hgd : (getPlayerView g pid).players.getD j { id := "" }
      = (getPlayerView g pid).players.get ⟨j, hlen⟩ := by
    rw [List.getD_eq_getElem?_getD, List.getElem?_eq_getElem hlen]
    rfl
  have hgd2 : g.players.getD j { id := "" } = g.players.get ⟨j, hj⟩ := by
    rw [List.getD_eq_getElem?_getD, List.getElem?_eq_getElem hj]
    rfl
  constructor
  · intro hphase
    rw [hgd, hgd2]
    simp only [getPlayerView, List.get_eq_getElem, List.getElem_mapIdx, hphase]
    by_cases hvi : g.players.findIdx? (fun p => p.id == pid) = some j
    · simp [hvi]
    · have hne : (g.players.findIdx? (fun p => p.id == pid) == some j) = false := by
        simp [hvi]
      simp [hvi, hne]
  · intro hphase
    rw [hgd, hgd2]
    simp only [getPlayerView, List.get_eq_getElem, List.getElem_mapIdx, hphase]
    simp

/-- Witness for C7: viewer `p2` sees player 0's hidden points as 0. -/
theorem getPlayerView_hides_hidden_vp_witness :
    ((0 : Nat) < viewGame.players.length ∧ viewGame.phase = GamePhase.playing)
    ∧ ((getPlayerView viewGame "p2").players.getD 0
        { id := "" }).hiddenVictoryPoints
      = (if viewGame.players.findIdx? (fun p => p.id == "p2") = some 0
         then (viewGame.players.getD 0 { id := "" }).hiddenVictoryPoints
         else 0) :=
  ⟨⟨by decide, rfl⟩,
    (getPlayerView_hides_hidden_vp viewGame "p2" 0 (by decide)).1 rfl⟩

/-- A clear `playDevCard` validation implies the per-turn gate was open. -/
theorem playErr_none_flag (g : Game) (pid : String) (c : DevCard)
    (h : canPlayDevCardErr g pid c = none) :
    (nontrivialDev c && g.devCardPlayedThisTurn) = false := by
  rcases hp : g.players.get? g.currentPlayerIndex with _ | p <;>
    (simp only [canPlayDevCardErr, hp] at h
     split_ifs at h <;> simp_all)

/-- C8: a successful play of a non-trivial development card sets the
per-turn flag, and any second non-trivial play attempt in the same turn —
by any player and with any card — returns an unsuccessful result. -/
theorem one_dev_card_per_turn :
    ∀ (g : Game) (pid pid2 : String) (c c2 : DevCard),
      nontrivialDev c = true → nontrivialDev c2 = true →
      (playDevCard g pid c).success = true →
      ((playDevCard g pid c).game.devCardPlayedThisTurn = true
       ∧ (playDevCard (playDevCard g pid c).game pid2 c2).success = false) := by
  intro g pid pid2 c c2 hc hc2 hs
  rcases hv : canPlayDevCardErr g pid c with _ | e
  swap
  · simp [playDevCard, hv] at hs
  have hg2 : (playDevCard g pid c).game = applyDevCard g c := by
    simp [playDevCard, hv]
  have hflag : (applyDevCard g c).devCardPlayedThisTurn = true := by
    simp [applyDevCard, hc]
  rw [hg2]
  refine ⟨hflag, ?_⟩
  rcases hv2 : canPlayDevCardErr (applyDevCard g c) pid2 c2 with _ | e2
  · exfalso
    have hfl := playErr_none_flag _ pid2 c2 hv2
    rw [hflag, hc2] at hfl
    simp at hfl
  · simp [playDevCard, hv2]

/-- Witness for C8: a player holding two knights plays one and cannot
play the second in the same turn. -/
theorem one_dev_card_per_turn_witness :
    (nontrivialDev .knight = true ∧ nontrivialDev .knight = true
      ∧ (playDevCard devGame "p1" .knight).success = true)
    ∧ ((playDevCard devGame "p1" .knight).game.devCardPlayedThisTurn = true
      ∧ (playDevCard (playDevCard devGame "p1" .knight).game "p1"
          .knight).success = false) :=
  ⟨⟨by decide, by decide, by decide⟩,
    one_dev_card_per_turn devGame "p1" "p1" .knight .knight
      (by decide) (by decide) (by decide)⟩

end Catan
